import Mathlib

/-!
Verification of the opensearch-stream ingestion pipeline.

The program (a Node.js CLI) streams JSON documents from stdin, groups them
into batches (`collectData`), assigns identifiers and dispatches bulk write
requests (`sendToElastic`), classifies the per-operation outcomes, and emits
per-batch error blocks and one final aggregate summary (`formatErroredDocs`,
`formatErrorSummary`).  This file is a shallow embedding of that pipeline:
each JavaScript function is translated into an executable Lean definition and
the specified properties are proved about those definitions.
-/

set_option maxHeartbeats 1000000

namespace OpensearchStream

/-- A JSON value, the shape of the documents flowing through the pipeline. -/
inductive JValue : Type where
  | null : JValue
  | bool : Bool → JValue
  | num : Int → JValue
  | str : String → JValue
  | arr : List JValue → JValue
  | obj : List (String × JValue) → JValue
deriving Repr

mutual

/-- Decidable equality on JSON values (the automatic derivation does not
handle the nested lists, so it is spelled out). -/
def decEqJValue : (a b : JValue) → Decidable (a = b)
  | JValue.null, JValue.null => isTrue rfl
  | JValue.null, JValue.bool _ => isFalse (by simp)
  | JValue.null, JValue.num _ => isFalse (by simp)
  | JValue.null, JValue.str _ => isFalse (by simp)
  | JValue.null, JValue.arr _ => isFalse (by simp)
  | JValue.null, JValue.obj _ => isFalse (by simp)
  | JValue.bool _, JValue.null => isFalse (by simp)
  | JValue.bool a, JValue.bool b =>
    match decEq a b with
    | isTrue h => isTrue (by rw [h])
    | isFalse h => isFalse (by simp [h])
  | JValue.bool _, JValue.num _ => isFalse (by simp)
  | JValue.bool _, JValue.str _ => isFalse (by simp)
  | JValue.bool _, JValue.arr _ => isFalse (by simp)
  | JValue.bool _, JValue.obj _ => isFalse (by simp)
  | JValue.num _, JValue.null => isFalse (by simp)
  | JValue.num _, JValue.bool _ => isFalse (by simp)
  | JValue.num a, JValue.num b =>
    match decEq a b with
    | isTrue h => isTrue (by rw [h])
    | isFalse h => isFalse (by simp [h])
  | JValue.num _, JValue.str _ => isFalse (by simp)
  | JValue.num _, JValue.arr _ => isFalse (by simp)
  | JValue.num _, JValue.obj _ => isFalse (by simp)
  | JValue.str _, JValue.null => isFalse (by simp)
  | JValue.str _, JValue.bool _ => isFalse (by simp)
  | JValue.str _, JValue.num _ => isFalse (by simp)
  | JValue.str a, JValue.str b =>
    match decEq a b with
    | isTrue h => isTrue (by rw [h])
    | isFalse h => isFalse (by simp [h])
  | JValue.str _, JValue.arr _ => isFalse (by simp)
  | JValue.str _, JValue.obj _ => isFalse (by simp)
  | JValue.arr _, JValue.null => isFalse (by simp)
  | JValue.arr _, JValue.bool _ => isFalse (by simp)
  | JValue.arr _, JValue.num _ => isFalse (by simp)
  | JValue.arr _, JValue.str _ => isFalse (by simp)
  | JValue.arr a, JValue.arr b =>
    match decEqJValueList a b with
    | isTrue h => isTrue (by rw [h])
    | isFalse h => isFalse (by simp [h])
  | JValue.arr _, JValue.obj _ => isFalse (by simp)
  | JValue.obj _, JValue.null => isFalse (by simp)
  | JValue.obj _, JValue.bool _ => isFalse (by simp)
  | JValue.obj _, JValue.num _ => isFalse (by simp)
  | JValue.obj _, JValue.str _ => isFalse (by simp)
  | JValue.obj _, JValue.arr _ => isFalse (by simp)
  | JValue.obj a, JValue.obj b =>
    match decEqJValueObj a b with
    | isTrue h => isTrue (by rw [h])
    | isFalse h => isFalse (by simp [h])

/-- Decidable equality on lists of JSON values. -/
def decEqJValueList : (as bs : List JValue) → Decidable (as = bs)
  | [], [] => isTrue rfl
  | [], _ :: _ => isFalse (by simp)
  | _ :: _, [] => isFalse (by simp)
  | a :: as, b :: bs =>
    match decEqJValue a b with
    | isTrue h =>
      match decEqJValueList as bs with
      | isTrue h2 => isTrue (by rw [h, h2])
      | isFalse h2 => isFalse (by simp [h2])
    | isFalse h => isFalse (by simp [h])

/-- Decidable equality on lists of JSON object fields. -/
def decEqJValueObj : (as bs : List (String × JValue)) → Decidable (as = bs)
  | [], [] => isTrue rfl
  | [], _ :: _ => isFalse (by simp)
  | _ :: _, [] => isFalse (by simp)
  | (k, a) :: as, (k2, b) :: bs =>
    match decEq k k2 with
    | isTrue hk =>
      match decEqJValue a b with
      | isTrue h =>
        match decEqJValueObj as bs with
        | isTrue h2 => isTrue (by rw [hk, h, h2])
        | isFalse h2 => isFalse (by simp [h2])
      | isFalse h => isFalse (by simp [h])
    | isFalse hk => isFalse (by simp [hk])

end

instance : DecidableEq JValue := decEqJValue

/-- A document: a JSON object given as an ordered association list of fields
(JavaScript objects preserve insertion order and have no duplicate keys). -/
abbrev JObj : Type := List (String × JValue)

/-- Field lookup, the embedding of JavaScript property access `doc[key]`:
the first entry with the given key wins, `none` models `undefined`. -/
def lookupKV (k : String) : JObj → Option JValue
  | [] => none
  | (k', v) :: rest => if k' = k then some v else lookupKV k rest

/-! ## The Batcher: `collectData` (src/unnamed/part_000 lines 209-230)

`collectData(size)` keeps a buffer; `write` pushes a document and, when the
buffer reaches `size`, increments the global `batchesExpected` and emits the
buffer; `end` increments `batchesExpected` if the remainder is non-empty,
sets the global `streamingFinished`, always emits the (possibly empty)
remainder and clears it.  The JS stream passes batches as JSON strings; the
embedding passes the lists directly. -/

/-- The mutable state touched by `collectData`: its buffer plus the two
globals `batchesExpected` and `streamingFinished`. -/
structure CollectState (α : Type) where
  buffer : List α
  batchesExpected : Nat
  streamingFinished : Bool
deriving DecidableEq, Repr

/-- One `stream.write(l)` call of `collectData` (lines 214-221): push onto the
buffer; on reaching `size`, bump `batchesExpected` and emit the full buffer. -/
def collectData_write (size : Nat) (s : CollectState α) (d : α) :
    CollectState α × Option (List α) :=
  let buffer := s.buffer ++ [d]
  if buffer.length = size then
    (⟨[], s.batchesExpected + 1, s.streamingFinished⟩, some buffer)
  else
    (⟨buffer, s.batchesExpected, s.streamingFinished⟩, none)

/-- The `stream.end()` call of `collectData` (lines 222-228): bump
`batchesExpected` only if the remainder is non-empty, set
`streamingFinished`, emit the remainder (even when empty) and clear it. -/
def collectData_end (s : CollectState α) : CollectState α × List α :=
  (⟨[], s.batchesExpected + (if s.buffer.length > 0 then 1 else 0), true⟩, s.buffer)

/-- Feeding a whole document sequence through the write calls of `collectData`,
collecting the emitted batches in order. -/
def collectData_writes (size : Nat) (s : CollectState α) :
    List α → CollectState α × List (List α)
  | [] => (s, [])
  | d :: ds =>
    let r := collectData_write size s d
    let rest := collectData_writes size r.1 ds
    (rest.1, (match r.2 with | some b => [b] | none => []) ++ rest.2)

/-- A complete run of `collectData` on a finite input: all `write`s followed
by the final `end`, returning every emitted batch in order (the last one is
the flushed remainder, possibly empty). -/
def collectData_run (size : Nat) (docs : List α) : List (List α) :=
  let w := collectData_writes size ⟨[], 0, false⟩ docs
  w.2 ++ [(collectData_end w.1).2]

lemma collectData_writes_cons (size : Nat) (s : CollectState α) (d : α) (ds : List α) :
    collectData_writes size s (d :: ds) =
      if (s.buffer ++ [d]).length = size then
        ((collectData_writes size ⟨[], s.batchesExpected + 1, s.streamingFinished⟩ ds).1,
          (s.buffer ++ [d]) ::
            (collectData_writes size ⟨[], s.batchesExpected + 1, s.streamingFinished⟩ ds).2)
      else
        collectData_writes size ⟨s.buffer ++ [d], s.batchesExpected, s.streamingFinished⟩ ds := by
  by_cases h : s.buffer.length + 1 = size <;>
    simp [collectData_writes, collectData_write, h]

lemma collectData_writes_spec (size : Nat) :
    ∀ (docs : List α) (s : CollectState α), s.buffer.length < size →
      ((collectData_writes size s docs).2.flatten ++
          (collectData_writes size s docs).1.buffer = s.buffer ++ docs) ∧
      (∀ b ∈ (collectData_writes size s docs).2, b.length = size) ∧
      (collectData_writes size s docs).1.buffer.length < size := by
  intro docs
  induction docs with
  | nil =>
    intro s hs
    simp [collectData_writes, hs]
  | cons d ds ih =>
    intro s hs
    rw [collectData_writes_cons]
    by_cases hfull : (s.buffer ++ [d]).length = size
    · rw [if_pos hfull]
      have h2 : (⟨[], s.batchesExpected + 1, s.streamingFinished⟩ :
          CollectState α).buffer.length < size := by
        simp only [List.length_nil]
        omega
      obtain ⟨ha, hb, hc⟩ := ih ⟨[], s.batchesExpected + 1, s.streamingFinished⟩ h2
      have ha' : (collectData_writes size
          (⟨[], s.batchesExpected + 1, s.streamingFinished⟩ : CollectState α) ds).2.flatten ++
          (collectData_writes size
          (⟨[], s.batchesExpected + 1, s.streamingFinished⟩ : CollectState α) ds).1.buffer
          = ds := by simpa using ha
      refine ⟨?_, ?_, hc⟩
      · rw [List.flatten_cons, List.append_assoc, ha']
        simp
      · intro b hb'
        rcases List.mem_cons.mp hb' with h | h
        · subst h; exact hfull
        · exact hb b h
    · rw [if_neg hfull]
      have h2 : (⟨s.buffer ++ [d], s.batchesExpected, s.streamingFinished⟩ :
          CollectState α).buffer.length < size := by
        simp only [List.length_append, List.length_cons, List.length_nil] at hfull ⊢
        omega
      obtain ⟨ha, hb, hc⟩ := ih ⟨s.buffer ++ [d], s.batchesExpected, s.streamingFinished⟩ h2
      refine ⟨?_, hb, hc⟩
      · simpa [List.append_assoc] using ha

/-- C3: the Batcher partitions its input exactly: the concatenation of all
emitted batches (including the final flushed remainder) equals the input
sequence in order, every batch other than the last has length exactly
`batchSize`, and the last batch has length at most `batchSize`. -/
theorem collectData_partitions_input (size : Nat) (docs : List α) (hs : 0 < size) :
    (collectData_run size docs).flatten = docs ∧
    (∀ b ∈ (collectData_run size docs).dropLast, b.length = size) ∧
    ∃ last, (collectData_run size docs).getLast? = some last ∧ last.length ≤ size := by
  have h0 : (⟨[], 0, false⟩ : CollectState α).buffer.length < size := by
    simpa using hs
  obtain ⟨ha, hb, hc⟩ := collectData_writes_spec size docs ⟨[], 0, false⟩ h0
  set w := collectData_writes size (⟨[], 0, false⟩ : CollectState α) docs with hw
  refine ⟨?_, ?_, ?_⟩
  · simp only [collectData_run, collectData_end, List.flatten_append, List.flatten_cons,
      List.flatten_nil, List.append_nil, ← hw]
    simpa using ha
  · intro b hbmem
    simp only [collectData_run, ← hw, List.dropLast_concat] at hbmem
    exact hb b hbmem
  · refine ⟨(collectData_end w.1).2, ?_, ?_⟩
    · simp [collectData_run, ← hw]
    · simp only [collectData_end]
      omega

/-- Witness for C3 at a concrete input: size 2, five documents give batches
of sizes 2, 2, 1. -/
theorem collectData_partitions_input_witness :
    (0 : Nat) < 2 ∧
    ((collectData_run 2 [10, 20, 30, 40, 50]).flatten = [10, 20, 30, 40, 50] ∧
      (∀ b ∈ (collectData_run 2 [10, 20, 30, 40, 50]).dropLast, b.length = 2) ∧
      ∃ last, (collectData_run 2 [10, 20, 30, 40, 50]).getLast? = some last ∧
        last.length ≤ 2) :=
  ⟨by decide, collectData_partitions_input 2 [10, 20, 30, 40, 50] (by decide)⟩

/-! ## The Completion Tracker (src/unnamed/part_000 lines 37-39, 122, 170-173, 216-217, 222-224)

The three globals `batchesExpected`, `batchesProcessed`, `streamingFinished`
start at `(0, 0, false)`.  `collectData.write` increments `batchesExpected`
when it emits a full batch and `collectData.end` increments it for a
non-empty remainder (a produce event); a successfully awaited bulk call in
`sendToElastic.write` increments `batchesProcessed` and then checks
`batchesProcessed === batchesExpected && streamingFinished`, printing the
final summary when the check passes (an acknowledge event);
`collectData.end` sets `streamingFinished` (a finish event).  Because
`collectData.end` is called once and performs its increment before setting
the flag, and no `write` runs after `end`, a valid run never produces after
the finish event. -/

/-- The three completion-tracking globals. -/
structure TrackState where
  batchesExpected : Nat
  batchesProcessed : Nat
  streamingFinished : Bool
deriving DecidableEq, Repr

/-- Counter events of a run: a batch emission, a bulk acknowledge, the end
of the input. -/
inductive TrackEvent : Type where
  | produce : TrackEvent
  | ack : TrackEvent
  | finish : TrackEvent
deriving DecidableEq, Repr

/-- Effect of one event on the tracking globals; the returned flag is true
exactly when the acknowledge path prints the final summary (the check at
lines 170-173, performed after `batchesProcessed++` at line 122). -/
def trackStep (s : TrackState) : TrackEvent → TrackState × Bool
  | TrackEvent.produce =>
    (⟨s.batchesExpected + 1, s.batchesProcessed, s.streamingFinished⟩, false)
  | TrackEvent.finish =>
    (⟨s.batchesExpected, s.batchesProcessed, true⟩, false)
  | TrackEvent.ack =>
    (⟨s.batchesExpected, s.batchesProcessed + 1, s.streamingFinished⟩,
      decide (s.batchesProcessed + 1 = s.batchesExpected) && s.streamingFinished)

/-- How many times the final summary is emitted along a run. -/
def emissionCount (s : TrackState) : List TrackEvent → Nat
  | [] => 0
  | e :: es =>
    (if (trackStep s e).2 then 1 else 0) + emissionCount (trackStep s e).1 es

/-- Validity of an event sequence: no produce event after the finish event
(`collectData` increments `batchesExpected` before setting
`streamingFinished`, and nothing is written after `end`).  The flag carries
whether the finish event has already happened. -/
def eventsOk : Bool → List TrackEvent → Bool
  | _, [] => true
  | fin, TrackEvent.produce :: es => !fin && eventsOk fin es
  | _, TrackEvent.finish :: es => eventsOk true es
  | fin, TrackEvent.ack :: es => eventsOk fin es

lemma emissionCount_eq_zero (es : List TrackEvent) :
    ∀ s : TrackState, eventsOk true es = true → s.streamingFinished = true →
      s.batchesExpected ≤ s.batchesProcessed → emissionCount s es = 0 := by
  induction es with
  | nil => intro s _ _ _; rfl
  | cons e es ih =>
    intro s hok hfin hle
    cases e with
    | produce => simp [eventsOk] at hok
    | finish =>
      have hok' : eventsOk true es = true := hok
      have h2 := ih ⟨s.batchesExpected, s.batchesProcessed, true⟩ hok' rfl hle
      simpa [emissionCount, trackStep] using h2
    | ack =>
      have hok' : eventsOk true es = true := hok
      have hne : ¬(s.batchesProcessed + 1 = s.batchesExpected) := by omega
      have h2 := ih ⟨s.batchesExpected, s.batchesProcessed + 1, s.streamingFinished⟩
        hok' hfin (by simp; omega)
      simpa [emissionCount, trackStep, hne] using h2

lemma emissionCount_le_one (es : List TrackEvent) :
    ∀ s : TrackState, eventsOk s.streamingFinished es = true →
      emissionCount s es ≤ 1 := by
  induction es with
  | nil => intro s _; exact Nat.zero_le 1
  | cons e es ih =>
    intro s hok
    cases e with
    | produce =>
      have hf : s.streamingFinished = false := by
        cases hfin : s.streamingFinished
        · rfl
        · rw [hfin] at hok; simp [eventsOk] at hok
      have hok' : eventsOk s.streamingFinished es = true := by
        rw [hf] at hok ⊢
        simpa [eventsOk] using hok
      have h2 := ih ⟨s.batchesExpected + 1, s.batchesProcessed, s.streamingFinished⟩ hok'
      simpa [emissionCount, trackStep] using h2
    | finish =>
      have hok' : eventsOk true es = true := hok
      have h2 := ih ⟨s.batchesExpected, s.batchesProcessed, true⟩ hok'
      simpa [emissionCount, trackStep] using h2
    | ack =>
      have hok' : eventsOk s.streamingFinished es = true := hok
      by_cases hemit :
          (decide (s.batchesProcessed + 1 = s.batchesExpected) && s.streamingFinished) = true
      · have hfin : s.streamingFinished = true := ((Bool.and_eq_true _ _).mp hemit).2
        have heq : s.batchesProcessed + 1 = s.batchesExpected :=
          of_decide_eq_true ((Bool.and_eq_true _ _).mp hemit).1
        have hzero : emissionCount
            ⟨s.batchesExpected, s.batchesProcessed + 1, s.streamingFinished⟩ es = 0 := by
          apply emissionCount_eq_zero
          · exact hfin ▸ hok'
          · exact hfin
          · simp
            omega
        simp [emissionCount, trackStep, hemit, hzero]
      · simp only [Bool.not_eq_true] at hemit
        have h2 := ih ⟨s.batchesExpected, s.batchesProcessed + 1, s.streamingFinished⟩ hok'
        simpa [emissionCount, trackStep, hemit] using h2

/-- C1: along any valid run (no batch produced after the input is
exhausted), starting from the initial counters `(0, 0, false)`, the final
summary is emitted at most once; and an emission can only happen at an
acknowledge event whose increment makes `batchesProcessed` equal to
`batchesExpected` while `streamingFinished` is already set — in particular
the counters coinciding before the finish event never emits. -/
theorem summary_emitted_exactly_once (es : List TrackEvent)
    (hok : eventsOk false es = true) :
    emissionCount ⟨0, 0, false⟩ es ≤ 1 ∧
    ∀ (s : TrackState) (e : TrackEvent), (trackStep s e).2 = true →
      e = TrackEvent.ack ∧ s.streamingFinished = true ∧
        s.batchesProcessed + 1 = s.batchesExpected := by
  constructor
  · exact emissionCount_le_one es ⟨0, 0, false⟩ hok
  · intro s e hemit
    cases e with
    | produce => simp [trackStep] at hemit
    | finish => simp [trackStep] at hemit
    | ack =>
      refine ⟨rfl, ?_, ?_⟩
      · exact ((Bool.and_eq_true _ _).mp hemit).2
      · exact of_decide_eq_true ((Bool.and_eq_true _ _).mp hemit).1

/-- Witness for C1 on a concrete run: two batches produced, input finished,
two acknowledges; the summary fires exactly at the second acknowledge and
the count is at most one. -/
theorem summary_emitted_exactly_once_witness :
    eventsOk false [TrackEvent.produce, TrackEvent.ack, TrackEvent.produce,
      TrackEvent.finish, TrackEvent.ack] = true ∧
    emissionCount ⟨0, 0, false⟩ [TrackEvent.produce, TrackEvent.ack,
      TrackEvent.produce, TrackEvent.finish, TrackEvent.ack] ≤ 1 :=
  ⟨by decide,
    (summary_emitted_exactly_once [TrackEvent.produce, TrackEvent.ack,
      TrackEvent.produce, TrackEvent.finish, TrackEvent.ack] (by decide)).1⟩

/-! ## The Identifier Assigner, create mode (src/unnamed/part_000 line 115)

In create mode the document identifier is
`hash(doc, excludeKeys: key => args.excludeKeys.includes(key))`, a call into
the external object-hash npm package whose source is not part of this
repository; only the call site is.  The hash is therefore modelled from the
spec (section 4.2). -/

/-- Lexicographic comparison of character lists by code point, a total
decidable order used to canonicalize key order. -/
def charListLe : List Char → List Char → Bool
  | [], _ => true
  | _ :: _, [] => false
  | a :: as, b :: bs =>
    if a.toNat < b.toNat then true
    else if b.toNat < a.toNat then false
    else charListLe as bs

lemma charListLe_cons_iff (a b : Char) (as bs : List Char) :
    charListLe (a :: as) (b :: bs) = true ↔
      a.toNat < b.toNat ∨ (a.toNat = b.toNat ∧ charListLe as bs = true) := by
  simp only [charListLe]
  by_cases h1 : a.toNat < b.toNat
  · simp [h1]
  · by_cases h2 : b.toNat < a.toNat
    · simp only [if_neg h1, if_pos h2]
      constructor
      · intro h; exact absurd h (by simp)
      · rintro (h | ⟨h, _⟩)
        · exact absurd h h1
        · omega
    · have heq : a.toNat = b.toNat := by omega
      simp [if_neg h1, if_neg h2, heq]

lemma charListLe_total (as : List Char) : ∀ bs : List Char,
    charListLe as bs = true ∨ charListLe bs as = true := by
  induction as with
  | nil => intro bs; left; rfl
  | cons a as ih =>
    intro bs
    cases bs with
    | nil => right; rfl
    | cons b bs =>
      rw [charListLe_cons_iff, charListLe_cons_iff]
      by_cases h1 : a.toNat < b.toNat
      · left; left; exact h1
      · by_cases h2 : b.toNat < a.toNat
        · right; left; exact h2
        · rcases ih bs with h | h
          · left; right; exact ⟨by omega, h⟩
          · right; right; exact ⟨by omega, h⟩

lemma charListLe_trans (as : List Char) : ∀ bs cs : List Char,
    charListLe as bs = true → charListLe bs cs = true → charListLe as cs = true := by
  induction as with
  | nil => intro bs cs _ _; rfl
  | cons a as ih =>
    intro bs cs h1 h2
    cases bs with
    | nil => simp [charListLe] at h1
    | cons b bs =>
      cases cs with
      | nil => simp [charListLe] at h2
      | cons c cs =>
        rw [charListLe_cons_iff] at h1 h2 ⊢
        rcases h1 with h1 | ⟨h1e, h1r⟩ <;> rcases h2 with h2 | ⟨h2e, h2r⟩
        · left; omega
        · left; omega
        · left; omega
        · right; exact ⟨by omega, ih bs cs h1r h2r⟩

lemma charListLe_antisymm (as : List Char) : ∀ bs : List Char,
    charListLe as bs = true → charListLe bs as = true → as = bs := by
  induction as with
  | nil =>
    intro bs _ h2
    cases bs with
    | nil => rfl
    | cons b bs => simp [charListLe] at h2
  | cons a as ih =>
    intro bs h1 h2
    cases bs with
    | nil => simp [charListLe] at h1
    | cons b bs =>
      rw [charListLe_cons_iff] at h1 h2
      rcases h1 with h1 | ⟨h1e, h1r⟩ <;> rcases h2 with h2 | ⟨h2e, h2r⟩
      · exfalso; omega
      · exfalso; omega
      · exfalso; omega
      · have hc : a = b := Char.ext (UInt32.ext h1e)
        rw [hc, ih bs h1r h2r]

/-- Total order on strings by code points, used only to canonicalize the
order of the keys of a document. -/
def strLeP (a b : String) : Prop := charListLe a.data b.data = true

instance : DecidableRel strLeP := fun a b =>
  inferInstanceAs (Decidable (charListLe a.data b.data = true))

instance : IsTotal String strLeP := ⟨fun a b => charListLe_total a.data b.data⟩

instance : IsTrans String strLeP := ⟨fun a b c => charListLe_trans a.data b.data c.data⟩

instance : IsAntisymm String strLeP :=
  ⟨fun a b h1 h2 => by
    cases a with
    | mk da =>
      cases b with
      | mk db => rw [charListLe_antisymm da db h1 h2]⟩

/-- Canonical sorting of a key list. -/
def sortStrings (l : List String) : List String := List.insertionSort strLeP l

lemma sortStrings_perm_eq {l₁ l₂ : List String} (h : l₁.Perm l₂) :
    sortStrings l₁ = sortStrings l₂ :=
  List.eq_of_perm_of_sorted
    ((List.perm_insertionSort _ l₁).trans (h.trans (List.perm_insertionSort _ l₂).symm))
    (List.sorted_insertionSort _ l₁) (List.sorted_insertionSort _ l₂)

lemma mem_sortStrings {a : String} {l : List String} : a ∈ sortStrings l ↔ a ∈ l :=
  List.mem_insertionSort strLeP

/-- Modelled from the spec: the create-mode identifier computed by the
external object-hash library (whose implementation is missing from src/) is,
per spec section 4.2, a deterministic canonical content hash over the
top-level fields of the document excluding every key in `excludeKeys` (matching
only top-level key names) and insensitive to key insertion order; the spec
treats the hash as collision-free, so it is idealized here by taking the
canonical (exclusion-filtered, key-sorted) field list itself as the
identifier. -/
def computeIdentifier (excludeKeys : List String) (doc : JObj) : JObj :=
  (sortStrings ((doc.map Prod.fst).filter (fun k => !excludeKeys.contains k))).map
    (fun k => (k, (lookupKV k doc).getD JValue.null))

lemma lookupKV_perm {l₁ l₂ : JObj} (h : l₁.Perm l₂) :
    (l₁.map Prod.fst).Nodup → ∀ k, lookupKV k l₁ = lookupKV k l₂ := by
  induction h with
  | nil => intro _ k; rfl
  | cons x h ih =>
    intro hn k
    obtain ⟨x1, x2⟩ := x
    simp only [List.map_cons, List.nodup_cons] at hn
    simp only [lookupKV]
    by_cases hk : x1 = k
    · rw [if_pos hk, if_pos hk]
    · rw [if_neg hk, if_neg hk]
      exact ih hn.2 k
  | swap x y l =>
    intro hn k
    obtain ⟨x1, x2⟩ := x
    obtain ⟨y1, y2⟩ := y
    simp only [List.map_cons, List.nodup_cons, List.mem_cons] at hn
    have hxy : y1 ≠ x1 := fun h => hn.1 (Or.inl h)
    simp only [lookupKV]
    by_cases hky : y1 = k <;> by_cases hkx : x1 = k
    · exact absurd (hky.trans hkx.symm) hxy
    · simp [hky, hkx]
    · simp [hky, hkx]
    · simp [hky, hkx]
  | trans h1 h2 ih1 ih2 =>
    intro hn k
    have hn2 := ((h1.map Prod.fst).nodup_iff).mp hn
    rw [ih1 hn k, ih2 hn2 k]

lemma lookupKV_middle_ne (k k' : String) (v v' : JValue) (p q : JObj) (h : k' ≠ k) :
    lookupKV k' (p ++ (k, v) :: q) = lookupKV k' (p ++ (k, v') :: q) := by
  induction p with
  | nil =>
    have hne : ¬(k = k') := fun hh => h hh.symm
    simp [lookupKV, hne]
  | cons a p ih =>
    obtain ⟨a1, a2⟩ := a
    simp [lookupKV, ih]

lemma lookupKV_middle_self (k : String) (v : JValue) (p q : JObj)
    (h : k ∉ p.map Prod.fst) :
    lookupKV k (p ++ (k, v) :: q) = some v := by
  induction p with
  | nil => simp [lookupKV]
  | cons a p ih =>
    obtain ⟨a1, a2⟩ := a
    simp only [List.map_cons, List.mem_cons] at h
    push_neg at h
    simp [lookupKV, Ne.symm h.1, ih h.2]

lemma computeIdentifier_perm (ex : List String) (d₁ d₂ : JObj) (h : d₁.Perm d₂)
    (hn : (d₁.map Prod.fst).Nodup) :
    computeIdentifier ex d₁ = computeIdentifier ex d₂ := by
  unfold computeIdentifier
  have hkeys : sortStrings ((d₁.map Prod.fst).filter (fun k => !ex.contains k)) =
      sortStrings ((d₂.map Prod.fst).filter (fun k => !ex.contains k)) :=
    sortStrings_perm_eq ((h.map Prod.fst).filter (fun k => !ex.contains k))
  rw [hkeys]
  exact List.map_congr_left fun k _ => by rw [lookupKV_perm h hn k]

lemma computeIdentifier_excluded (ex : List String) (p q : JObj) (k : String)
    (v₁ v₂ : JValue) (hk : ex.contains k = true) :
    computeIdentifier ex (p ++ (k, v₁) :: q) = computeIdentifier ex (p ++ (k, v₂) :: q) := by
  unfold computeIdentifier
  have hkeys : (p ++ (k, v₂) :: q).map Prod.fst = (p ++ (k, v₁) :: q).map Prod.fst := by simp
  rw [hkeys]
  apply List.map_congr_left
  intro k' hk'
  have hmem := mem_sortStrings.mp hk'
  have hne : ¬ ex.contains k' = true := by
    have h2 := (List.mem_filter.mp hmem).2
    simpa using h2
  have hkk : k' ≠ k := fun h => hne (h ▸ hk)
  rw [lookupKV_middle_ne k k' v₁ v₂ p q hkk]

lemma computeIdentifier_value_ne (ex : List String) (p q : JObj) (k : String)
    (v₁ v₂ : JValue) (hk : ex.contains k = false) (hv : v₁ ≠ v₂)
    (hn : ((p ++ (k, v₁) :: q).map Prod.fst).Nodup) :
    computeIdentifier ex (p ++ (k, v₁) :: q) ≠ computeIdentifier ex (p ++ (k, v₂) :: q) := by
  intro heq
  unfold computeIdentifier at heq
  have hkeys : (p ++ (k, v₂) :: q).map Prod.fst = (p ++ (k, v₁) :: q).map Prod.fst := by simp
  rw [hkeys] at heq
  have hmemk : k ∈ sortStrings
      (((p ++ (k, v₁) :: q).map Prod.fst).filter (fun x => !ex.contains x)) := by
    apply mem_sortStrings.mpr
    apply List.mem_filter.mpr
    refine ⟨by simp, by simp only [hk, Bool.not_false]⟩
  have hpair := List.map_inj_left.mp heq k hmemk
  have hn' : (p.map Prod.fst ++ k :: q.map Prod.fst).Nodup := by simpa using hn
  have hknotp : k ∉ p.map Prod.fst := by
    have h2 := List.nodup_middle.mp hn'
    intro hmem
    exact (List.nodup_cons.mp h2).1 (List.mem_append.mpr (Or.inl hmem))
  rw [lookupKV_middle_self k v₁ p q hknotp, lookupKV_middle_self k v₂ p q hknotp] at hpair
  exact hv (by simpa using hpair)

/-- C5: the modelled create-mode identifier is deterministic: equal documents
hash equally; documents differing only in key insertion order hash equally;
changing only the value of an excluded key leaves the identifier unchanged;
and changing the value of a non-excluded key changes the identifier. -/
theorem computeIdentifier_deterministic (ex : List String) :
    (∀ d : JObj, computeIdentifier ex d = computeIdentifier ex d) ∧
    (∀ d₁ d₂ : JObj, d₁.Perm d₂ → (d₁.map Prod.fst).Nodup →
      computeIdentifier ex d₁ = computeIdentifier ex d₂) ∧
    (∀ (p q : JObj) (k : String) (v₁ v₂ : JValue), ex.contains k = true →
      computeIdentifier ex (p ++ (k, v₁) :: q) = computeIdentifier ex (p ++ (k, v₂) :: q)) ∧
    (∀ (p q : JObj) (k : String) (v₁ v₂ : JValue), ex.contains k = false → v₁ ≠ v₂ →
      ((p ++ (k, v₁) :: q).map Prod.fst).Nodup →
      computeIdentifier ex (p ++ (k, v₁) :: q) ≠ computeIdentifier ex (p ++ (k, v₂) :: q)) :=
  ⟨fun _ => rfl,
    fun d₁ d₂ h hn => computeIdentifier_perm ex d₁ d₂ h hn,
    fun p q k v₁ v₂ hk => computeIdentifier_excluded ex p q k v₁ v₂ hk,
    fun p q k v₁ v₂ hk hv hn => computeIdentifier_value_ne ex p q k v₁ v₂ hk hv hn⟩

/-- Witness for C5 at concrete inputs: with excluded key ts, permuting keys
or changing the ts value keeps the identifier; changing the a value does
not. -/
theorem computeIdentifier_deterministic_witness :
    computeIdentifier ["ts"] [("a", JValue.num 1), ("ts", JValue.num 5)] =
      computeIdentifier ["ts"] [("ts", JValue.num 5), ("a", JValue.num 1)] ∧
    computeIdentifier ["ts"] [("a", JValue.num 1), ("ts", JValue.num 5)] =
      computeIdentifier ["ts"] [("a", JValue.num 1), ("ts", JValue.num 6)] ∧
    computeIdentifier ["ts"] [("a", JValue.num 1)] ≠
      computeIdentifier ["ts"] [("a", JValue.num 2)] :=
  ⟨(computeIdentifier_deterministic ["ts"]).2.1
      [("a", JValue.num 1), ("ts", JValue.num 5)]
      [("ts", JValue.num 5), ("a", JValue.num 1)] (by decide) (by decide),
    (computeIdentifier_deterministic ["ts"]).2.2.1
      [("a", JValue.num 1)] [] "ts" (JValue.num 5) (JValue.num 6) (by decide),
    (computeIdentifier_deterministic ["ts"]).2.2.2
      [] [] "a" (JValue.num 1) (JValue.num 2) (by decide) (by decide) (by decide)⟩

/-- C6: the modelled content hash excludes configured keys at the top level
only: in a document where a configured key name occurs only nested inside
the value of a non-excluded top-level key, changing that nested value
changes the identifier. -/
theorem computeIdentifier_excludes_top_level_only (ex : List String) (p q : JObj)
    (kTop k : String) (ipre ipost : JObj) (w₁ w₂ : JValue)
    (hex : ex.contains k = true) (hTop : ex.contains kTop = false)
    (hw : w₁ ≠ w₂)
    (hnotTop : k ∉ (p ++ (kTop, JValue.obj (ipre ++ (k, w₁) :: ipost)) :: q).map Prod.fst)
    (hn : ((p ++ (kTop, JValue.obj (ipre ++ (k, w₁) :: ipost)) :: q).map Prod.fst).Nodup) :
    computeIdentifier ex (p ++ (kTop, JValue.obj (ipre ++ (k, w₁) :: ipost)) :: q) ≠
      computeIdentifier ex (p ++ (kTop, JValue.obj (ipre ++ (k, w₂) :: ipost)) :: q) := by
  apply computeIdentifier_value_ne ex p q kTop _ _ hTop ?_ hn
  intro h
  injection h with h1
  have h2 := List.append_cancel_left h1
  injection h2 with h3 h4
  injection h3 with h5 h6
  exact hw h6

/-- Witness for C6 at a concrete input: ts is excluded but occurs only
nested under the non-excluded top-level key meta, so changing the nested ts
value changes the identifier. -/
theorem computeIdentifier_excludes_top_level_only_witness :
    computeIdentifier ["ts"] [("meta", JValue.obj [("ts", JValue.num 1)])] ≠
      computeIdentifier ["ts"] [("meta", JValue.obj [("ts", JValue.num 2)])] :=
  computeIdentifier_excludes_top_level_only ["ts"] [] [] "meta" "ts" [] []
    (JValue.num 1) (JValue.num 2) (by decide) (by decide) (by decide) (by decide) (by decide)

/-! ## The Bulk Dispatcher and Result Classifier: `sendToElastic`
(src/unnamed/part_000 lines 87-180) and the Reporter (lines 182-207) -/

/-- UTF-8 encoding of one character as byte values, what Buffer.from
performs on the string form of the upsert ID field value. -/
def utf8Bytes (c : Char) : List Nat :=
  let n := c.toNat
  if n < 128 then [n]
  else if n < 2048 then [192 + n / 64, 128 + n % 64]
  else if n < 65536 then [224 + n / 4096, 128 + (n / 64) % 64, 128 + n % 64]
  else [240 + n / 262144, 128 + (n / 4096) % 64, 128 + (n / 64) % 64, 128 + n % 64]

/-- The UTF-8 bytes of a string. -/
def strBytes (s : String) : List Nat := s.data.flatMap utf8Bytes

/-- The base64 alphabet. -/
def base64Table : List Char :=
  "ABCDEFGHIJKLMNOPQRSTUVWXYZabcdefghijklmnopqrstuvwxyz0123456789+/".data

/-- One base64 digit. -/
def b64c (n : Nat) : Char := base64Table.getD n 'A'

/-- Standard base64 with padding over a byte list, the embedding of the
buffer-to-base64 conversion at line 107. -/
def base64Encode : List Nat → String
  | [] => ""
  | [a] => String.mk [b64c (a / 4), b64c (a % 4 * 16), '=', '=']
  | [a, b] => String.mk [b64c (a / 4), b64c (a % 4 * 16 + b / 16), b64c (b % 16 * 4), '=']
  | a :: b :: c :: rest =>
    String.mk [b64c (a / 4), b64c (a % 4 * 16 + b / 16), b64c (b % 16 * 4 + c / 64),
      b64c (c % 64)] ++ base64Encode rest

mutual

/-- The string form of a JSON value as JavaScript String(v) renders it:
null becomes the word null, numbers and booleans their decimal and word
forms, arrays join their elements with commas rendering null elements as
empty, and plain objects render as the usual object placeholder text. -/
def jsString : JValue → String
  | JValue.null => "null"
  | JValue.bool true => "true"
  | JValue.bool false => "false"
  | JValue.num n => toString n
  | JValue.str s => s
  | JValue.arr xs => jsStringArr xs
  | JValue.obj _ => "[object Object]"

/-- Comma-joined rendering of array elements. -/
def jsStringArr : List JValue → String
  | [] => ""
  | [x] => jsStringItem x
  | x :: y :: xs => jsStringItem x ++ "," ++ jsStringArr (y :: xs)

/-- Rendering of one array element inside a join: null renders empty. -/
def jsStringItem : JValue → String
  | JValue.null => ""
  | JValue.bool true => "true"
  | JValue.bool false => "false"
  | JValue.num n => toString n
  | JValue.str s => s
  | JValue.arr xs => jsStringArr xs
  | JValue.obj _ => "[object Object]"

end

/-- The command-line configuration consumed by sendToElastic (lines 11-21):
upsert mode, verbose reporting, the upsert ID field and the create-mode
exclusion keys.  A missing idField option is modelled as the empty string
(the startup check at lines 29-32 rejects upsert mode without one). -/
structure Config where
  upsert : Bool
  verbose : Bool
  idField : String
  excludeKeys : List String
deriving Repr

/-- A classified failed operation as pushed onto erroredDocuments
(lines 143-151). -/
structure ErrDoc where
  status : Nat
  error : String
  type : Option String
  docIndex : Nat
deriving DecidableEq, Repr

/-- One item of the bulk response: its status and optional error reason and
type (the item is keyed by its operation name in the wire format; the
embedding stores the fields the code reads). -/
structure ItemOutcome where
  status : Nat
  hasError : Bool
  errorReason : Option String
  errorType : Option String
deriving DecidableEq, Repr

/-- The outcome of one esClient.bulk call: a response carrying the errors
flag and the items, or the awaited call itself rejecting (transport
failure). -/
inductive BulkOutcome : Type where
  | ok : Bool → List ItemOutcome → BulkOutcome
  | transportError : String → BulkOutcome
deriving Repr

/-- The mutable state captured by the sendToElastic closure (lines 90-93)
together with the global batchesProcessed counter (line 38).  The closure
also declares skippedDocuments (line 91) but never reads or writes it, so it
is omitted. -/
structure SendState where
  erroredDocuments : List ErrDoc
  batchSkipped : Nat
  errorSummary : List (String × Nat)
  batchesProcessed : Nat
deriving DecidableEq, Repr

/-- JavaScript x || d for an optional string: null, undefined and the empty
string are falsy and fall back to the default (line 148). -/
def jsOrDefault : Option String → String → String
  | none, d => d
  | some "", d => d
  | some s, _ => s

/-- How string concatenation renders an optional value: undefined prints as
the word undefined (line 188 when the error type is absent). -/
def jsShowOpt : Option String → String
  | none => "undefined"
  | some s => s

/-- Incrementing a counter in the errorSummary object: bump the existing
entry or create it at 1 (lines 135-136 and 152-153). -/
def bumpKey (k : String) : List (String × Nat) → List (String × Nat)
  | [] => [(k, 1)]
  | (k', c) :: rest => if k' = k then (k', c + 1) :: rest else (k', c) :: bumpKey k rest

/-- Classification of one bulk response item (lines 128-156): no error means
success and no change; an errored 409 in create-only mode is a skipped
duplicate, incrementing batchSkipped and, only under verbose, the aggregate
Skipped counter, without touching the error list; every other errored item,
including a 409 in upsert mode (the switch falls through to default), is
appended to erroredDocuments with the reason falling back to a placeholder,
and counted in the aggregate summary under its status code. -/
def classifyItem (upsert verbose : Bool) (st : SendState) (i : Nat)
    (item : ItemOutcome) : SendState :=
  if item.hasError then
    if item.status = 409 ∧ upsert = false then
      { st with
        errorSummary := if verbose then bumpKey "Skipped" st.errorSummary else st.errorSummary
        batchSkipped := st.batchSkipped + 1 }
    else
      { st with
        erroredDocuments := st.erroredDocuments ++
          [⟨item.status, jsOrDefault item.errorReason "(no reason found)", item.errorType, i⟩]
        errorSummary := bumpKey (toString item.status) st.errorSummary }
  else st

/-- Left fold of the classification over indexed items. -/
def classifyFold (upsert verbose : Bool) : SendState → List (Nat × ItemOutcome) → SendState
  | st, [] => st
  | st, p :: ps => classifyFold upsert verbose (classifyItem upsert verbose st p.1 p.2) ps

/-- The forEach over bulkResponse.body.items at line 126, each item paired
with its index. -/
def classifyItems (upsert verbose : Bool) (st : SendState)
    (items : List ItemOutcome) : SendState :=
  classifyFold upsert verbose st items.enum

/-- The error-list entries contributed by a single response item, as a
function of the item alone. -/
def itemError (upsert : Bool) (i : Nat) (item : ItemOutcome) : List ErrDoc :=
  if item.hasError then
    if item.status = 409 ∧ upsert = false then []
    else [⟨item.status, jsOrDefault item.errorReason "(no reason found)", item.errorType, i⟩]
  else []

/-- All error-list entries contributed by one response, independent of any
carried-over state. -/
def itemErrors (upsert : Bool) (items : List ItemOutcome) : List ErrDoc :=
  items.enum.flatMap fun p => itemError upsert p.1 p.2

/-- One element of the bulk request body (lines 109-116): an update action
descriptor or a doc_as_upsert payload in upsert mode, a create action
descriptor (carrying the modelled content hash) or the plain document in
create mode. -/
inductive Op : Type where
  | updateAction : String → Op
  | updateDoc : JObj → Bool → Op
  | createAction : JObj → Op
  | createDoc : JObj → Op
deriving DecidableEq, Repr

/-- The per-document branch of the flatMap at lines 99-118: in upsert mode
(flag set and an idField configured) a missing or null ID field value throws
an error naming the field; otherwise the document yields an update action
whose identifier is the base64 encoding of the string form of the field
value, paired with a doc_as_upsert payload.  In create mode it yields a
create action with the content hash plus the document itself. -/
def opsForDoc (cfg : Config) (doc : JObj) : Except String (List Op) :=
  if cfg.upsert = true ∧ cfg.idField ≠ "" then
    match lookupKV cfg.idField doc with
    | none =>
      Except.error ("Document missing required ID field " ++ cfg.idField)
    | some JValue.null =>
      Except.error ("Document missing required ID field " ++ cfg.idField)
    | some v =>
      Except.ok [Op.updateAction (base64Encode (strBytes (jsString v))),
        Op.updateDoc doc true]
  else
    Except.ok [Op.createAction (computeIdentifier cfg.excludeKeys doc), Op.createDoc doc]

/-- The whole flatMap at line 99: the concatenation of every per-document
operation pair, with the first missing ID field aborting the build (the
thrown exception propagates out of the callback before any dispatch). -/
def buildOperations (cfg : Config) : List JObj → Except String (List Op)
  | [] => Except.ok []
  | d :: ds =>
    match opsForDoc cfg d with
    | Except.error msg => Except.error msg
    | Except.ok ops =>
      match buildOperations cfg ds with
      | Except.error msg => Except.error msg
      | Except.ok rest => Except.ok (ops ++ rest)

/-- formatErroredDocs (lines 182-193): one four-line block per errored
document. -/
def formatErroredDocs (docs : List ErrDoc) : String :=
  String.join (docs.map fun doc =>
    "* DOC " ++ toString doc.docIndex ++ "\n" ++
    "-- Status: " ++ toString doc.status ++ "\n" ++
    "-- Type: " ++ jsShowOpt doc.type ++ "\n" ++
    "-- Reason: " ++ doc.error ++ "\n")

/-- The per-status lines of the aggregate summary: a header before the first
key, then one line per key (the loop body of lines 199-203). -/
def summaryLines (summary : List (String × Nat)) : String :=
  String.join (summary.enum.map fun p =>
    (if p.1 = 0 then "====> SUMMARY\n" else "") ++
    "Status: " ++ p.2.1 ++ "\t" ++ "Count: " ++ toString p.2.2 ++ "\n")

/-- formatErrorSummary (lines 195-207): the status lines followed by a Total
line whenever the accumulated total is positive.  The JS summary object is
modelled as the association list of its key-count pairs in iteration
order. -/
def formatErrorSummary (summary : List (String × Nat)) : String :=
  let total := (summary.map Prod.snd).sum
  summaryLines summary ++ (if total > 0 then "Total: " ++ toString total ++ "\n" else "")

/-- Everything observable from one sendToElastic stream.write invocation:
the resulting closure state, the chunks written to stdout in order, the
error list handed to the printed batch block (empty when no block is
printed), whether a bulk request was dispatched, whether the final summary
was printed, and the message of an exception thrown before dispatch. -/
structure WriteEffect where
  state : SendState
  output : List String
  printedErrors : List ErrDoc
  dispatched : Bool
  summaryEmitted : Bool
  thrownError : Option String
deriving DecidableEq, Repr

/-- One sendToElastic stream.write call (lines 95-177).  The batch arrives
as the parsed document list; the result of the awaited bulk call is passed
in as the oracle `outcome`.  Line 97 drops empty batches before anything
else; the flatMap at line 99 may throw before the try block, in which case
nothing is dispatched and the state is untouched; a transport failure lands
in the catch at line 176, logging the error and leaving every counter
untouched; a response first increments batchesProcessed (line 122), then,
when the errors flag is set, classifies every item, prints the batch error
block when errors were recorded and clears the list (lines 159-164), resets
batchSkipped (line 165), and finally prints the aggregate summary when
batchesProcessed equals batchesExpected and streamingFinished is set
(lines 170-173). -/
def sendToElastic_write (cfg : Config) (batchesExpected : Nat)
    (streamingFinished : Bool) (s : SendState) (realData : List JObj)
    (outcome : BulkOutcome) : WriteEffect :=
  if realData.length = 0 then
    ⟨s, [], [], false, false, none⟩
  else
    match buildOperations cfg realData with
    | Except.error msg => ⟨s, [], [], false, false, some msg⟩
    | Except.ok _ =>
      match outcome with
      | BulkOutcome.transportError msg =>
        ⟨s, ["Error during bulk: " ++ msg ++ "\n"], [], true, false, none⟩
      | BulkOutcome.ok errorsFlag items =>
        let s1 : SendState := { s with batchesProcessed := s.batchesProcessed + 1 }
        let out1 : List String := if cfg.verbose then
          ["Processing batch " ++ toString s1.batchesProcessed ++ ", " ++
            toString realData.length ++ " docs\n"] else []
        let s2 := if errorsFlag then classifyItems cfg.upsert cfg.verbose s1 items else s1
        let printed : List ErrDoc :=
          if errorsFlag ∧ s2.erroredDocuments.length > 0 then s2.erroredDocuments else []
        let out2 : List String :=
          if errorsFlag ∧ s2.erroredDocuments.length > 0 then
            ["====> BATCH " ++ toString s2.batchesProcessed ++ " | " ++
              toString realData.length ++ " DOCS | " ++ toString s2.batchSkipped ++
              " SKIPPED | " ++ toString s2.erroredDocuments.length ++ " ERRORS\n",
              formatErroredDocs s2.erroredDocuments, "\n"]
          else []
        let s3 : SendState := if errorsFlag then
            { s2 with
              erroredDocuments :=
                if s2.erroredDocuments.length > 0 then [] else s2.erroredDocuments
              batchSkipped := 0 }
          else s2
        let out3 : List String := if cfg.verbose then ["Success!\n\n"] else []
        let emit : Bool :=
          decide (s3.batchesProcessed = batchesExpected) && streamingFinished
        let out4 : List String := if emit then [formatErrorSummary s3.errorSummary] else []
        ⟨s3, out1 ++ out2 ++ out3 ++ out4, printed, true, emit, none⟩

/-- Counterexample to C2 as stated: on a transport failure (the bulk call
rejecting) the batches-acknowledged counter batchesProcessed does not
advance, because line 122 increments it only after the await succeeds and
the catch at line 176 only logs. -/
theorem transport_failure_does_not_advance_counter :
    ¬((sendToElastic_write ⟨false, false, "", []⟩ 1 true ⟨[], 0, [], 0⟩
        [[("a", JValue.num 1)]]
        (BulkOutcome.transportError "boom")).state.batchesProcessed = 0 + 1) := by
  decide

/-- C2 amended: for every non-empty batch whose operations build
successfully, a transport failure leaves the whole state, including the
batches-acknowledged counter, unchanged, performs no per-operation
classification, prints only the bulk error message, and does not emit the
summary — so completion detection is not advanced and can hang. -/
theorem transport_failure_behaviour (cfg : Config) (exp : Nat) (fin : Bool)
    (s : SendState) (realData : List JObj) (msg : String) (ops : List Op)
    (hne : realData ≠ []) (hops : buildOperations cfg realData = Except.ok ops) :
    sendToElastic_write cfg exp fin s realData (BulkOutcome.transportError msg) =
      ⟨s, ["Error during bulk: " ++ msg ++ "\n"], [], true, false, none⟩ := by
  have h0 : ¬(realData.length = 0) := by simpa using hne
  unfold sendToElastic_write
  rw [if_neg h0, hops]

/-- Witness for C2 amended at a concrete input: one create-mode batch, the
bulk call rejects, the state with zero processed batches is returned
unchanged. -/
theorem transport_failure_behaviour_witness :
    ([[("a", JValue.num 1)]] : List JObj) ≠ [] ∧
    sendToElastic_write ⟨false, false, "", []⟩ 1 true ⟨[], 0, [], 0⟩
        [[("a", JValue.num 1)]] (BulkOutcome.transportError "boom") =
      ⟨⟨[], 0, [], 0⟩, ["Error during bulk: boom\n"], [], true, false, none⟩ :=
  ⟨by decide,
    transport_failure_behaviour ⟨false, false, "", []⟩ 1 true ⟨[], 0, [], 0⟩
      [[("a", JValue.num 1)]] "boom"
      [Op.createAction (computeIdentifier [] [("a", JValue.num 1)]),
        Op.createDoc [("a", JValue.num 1)]]
      (by decide) rfl⟩

/-- C4: an errored outcome with status 409 is classified as a skipped
duplicate in create-only mode — the per-batch skip counter advances, the
aggregate Skipped counter advances only under verbose, and the error list is
untouched — while in upsert mode the same outcome is a genuine error,
appended to the error list and counted in the aggregate summary under its
status code. -/
theorem classify_409 (upsert verbose : Bool) (st : SendState) (i : Nat)
    (item : ItemOutcome) (herr : item.hasError = true) (h409 : item.status = 409) :
    (upsert = false →
      (classifyItem upsert verbose st i item).erroredDocuments = st.erroredDocuments ∧
      (classifyItem upsert verbose st i item).batchSkipped = st.batchSkipped + 1 ∧
      (verbose = true →
        (classifyItem upsert verbose st i item).errorSummary =
          bumpKey "Skipped" st.errorSummary) ∧
      (verbose = false →
        (classifyItem upsert verbose st i item).errorSummary = st.errorSummary)) ∧
    (upsert = true →
      (classifyItem upsert verbose st i item).erroredDocuments = st.erroredDocuments ++
        [⟨409, jsOrDefault item.errorReason "(no reason found)", item.errorType, i⟩] ∧
      (classifyItem upsert verbose st i item).errorSummary =
        bumpKey "409" st.errorSummary ∧
      (classifyItem upsert verbose st i item).batchSkipped = st.batchSkipped) := by
  have hts : (toString (409 : Nat)) = "409" := rfl
  constructor
  · intro hu
    subst hu
    refine ⟨?_, ?_, ?_, ?_⟩
    · simp [classifyItem, herr, h409]
    · simp [classifyItem, herr, h409]
    · intro hv; subst hv; simp [classifyItem, herr, h409]
    · intro hv; subst hv; simp [classifyItem, herr, h409]
  · intro hu
    subst hu
    refine ⟨?_, ?_, ?_⟩
    · simp [classifyItem, herr, h409]
    · simp [classifyItem, herr, h409, hts]
    · simp [classifyItem, herr, h409]

/-- Witness for C4 at concrete inputs: a 409 outcome bumps the skip counter
in create mode and lands in the error list in upsert mode. -/
theorem classify_409_witness :
    (classifyItem false true ⟨[], 0, [], 0⟩ 0
        ⟨409, true, some "conflict", some "vc"⟩).batchSkipped = 0 + 1 ∧
    (classifyItem true false ⟨[], 0, [], 0⟩ 0
        ⟨409, true, some "conflict", some "vc"⟩).erroredDocuments =
      [] ++ [⟨409, "conflict", some "vc", 0⟩] :=
  ⟨((classify_409 false true ⟨[], 0, [], 0⟩ 0
        ⟨409, true, some "conflict", some "vc"⟩ rfl rfl).1 rfl).2.1,
    ((classify_409 true false ⟨[], 0, [], 0⟩ 0
        ⟨409, true, some "conflict", some "vc"⟩ rfl rfl).2 rfl).1⟩

/-- C8: flushing an empty remainder does not increment batchesExpected but
still sets streamingFinished, and the empty batch it emits is dropped by the
downstream write with no state change, no output, no dispatch and no
summary, so it cannot block completion detection; a non-empty remainder
increments batchesExpected by exactly one and is emitted as the final
batch. -/
theorem flush_empty_remainder (s : CollectState JObj) (cfg : Config)
    (exp : Nat) (fin : Bool) (ss : SendState) (outcome : BulkOutcome) :
    (s.buffer = [] →
      (collectData_end s).1.batchesExpected = s.batchesExpected ∧
      (collectData_end s).1.streamingFinished = true ∧
      (collectData_end s).2 = [] ∧
      sendToElastic_write cfg exp fin ss (collectData_end s).2 outcome =
        ⟨ss, [], [], false, false, none⟩) ∧
    (s.buffer ≠ [] →
      (collectData_end s).1.batchesExpected = s.batchesExpected + 1 ∧
      (collectData_end s).1.streamingFinished = true ∧
      (collectData_end s).2 = s.buffer) := by
  constructor
  · intro hb
    refine ⟨?_, rfl, ?_, ?_⟩
    · simp [collectData_end, hb]
    · simp [collectData_end, hb]
    · simp [collectData_end, hb, sendToElastic_write]
  · intro hb
    refine ⟨?_, rfl, rfl⟩
    have hpos : s.buffer.length > 0 := List.length_pos.mpr hb
    simp [collectData_end, hpos]

/-- Witness for C8 at concrete inputs: an empty buffer flush keeps
batchesExpected at 3 and the downstream write of the emitted empty batch is
a no-op; a one-document buffer flush raises batchesExpected to 4. -/
theorem flush_empty_remainder_witness :
    ((collectData_end (⟨[], 3, false⟩ : CollectState JObj)).1.batchesExpected = 3 ∧
      sendToElastic_write ⟨false, false, "", []⟩ 3 true ⟨[], 0, [], 3⟩
        (collectData_end (⟨[], 3, false⟩ : CollectState JObj)).2
        (BulkOutcome.ok false []) = ⟨⟨[], 0, [], 3⟩, [], [], false, false, none⟩) ∧
    (collectData_end (⟨[[("a", JValue.num 1)]], 3, false⟩ :
        CollectState JObj)).1.batchesExpected = 3 + 1 :=
  ⟨⟨((flush_empty_remainder ⟨[], 3, false⟩ ⟨false, false, "", []⟩ 3 true
        ⟨[], 0, [], 3⟩ (BulkOutcome.ok false [])).1 rfl).1,
      ((flush_empty_remainder ⟨[], 3, false⟩ ⟨false, false, "", []⟩ 3 true
        ⟨[], 0, [], 3⟩ (BulkOutcome.ok false [])).1 rfl).2.2.2⟩,
    ((flush_empty_remainder ⟨[[("a", JValue.num 1)]], 3, false⟩ ⟨false, false, "", []⟩
        3 true ⟨[], 0, [], 3⟩ (BulkOutcome.ok false [])).2 (by decide)).1⟩

/-- C10: the rendered aggregate summary of the empty mapping is the empty
string — no header, no status lines, no Total line — and whenever the
accumulated counts have a positive sum the rendered summary is the status
lines followed by a Total line carrying exactly the sum of all per-status
counts. -/
theorem formatErrorSummary_spec :
    formatErrorSummary [] = "" ∧
    ∀ summary : List (String × Nat), 0 < (summary.map Prod.snd).sum →
      formatErrorSummary summary =
        summaryLines summary ++
          ("Total: " ++ toString ((summary.map Prod.snd).sum) ++ "\n") := by
  constructor
  · rfl
  · intro summary h
    unfold formatErrorSummary
    simp only [if_pos h]

/-- Witness for C10 at a concrete input: two statuses with counts 2 and 1
render with a Total of 3. -/
theorem formatErrorSummary_spec_witness :
    (0 : Nat) < (([("409", 2), ("Skipped", 1)] : List (String × Nat)).map Prod.snd).sum ∧
    formatErrorSummary [("409", 2), ("Skipped", 1)] =
      summaryLines [("409", 2), ("Skipped", 1)] ++
        ("Total: " ++
          toString ((([("409", 2), ("Skipped", 1)] :
            List (String × Nat)).map Prod.snd).sum) ++ "\n") :=
  ⟨by decide, formatErrorSummary_spec.2 [("409", 2), ("Skipped", 1)] (by decide)⟩

lemma opsForDoc_missing (cfg : Config) (doc : JObj)
    (hu : cfg.upsert = true) (hf : cfg.idField ≠ "")
    (hm : lookupKV cfg.idField doc = none ∨ lookupKV cfg.idField doc = some JValue.null) :
    opsForDoc cfg doc =
      Except.error ("Document missing required ID field " ++ cfg.idField) := by
  unfold opsForDoc
  rw [if_pos ⟨hu, hf⟩]
  rcases hm with h | h <;> rw [h]

lemma opsForDoc_present (cfg : Config) (doc : JObj) (v : JValue)
    (hu : cfg.upsert = true) (hf : cfg.idField ≠ "")
    (hl : lookupKV cfg.idField doc = some v) (hv : v ≠ JValue.null) :
    opsForDoc cfg doc =
      Except.ok [Op.updateAction (base64Encode (strBytes (jsString v))),
        Op.updateDoc doc true] := by
  unfold opsForDoc
  rw [if_pos ⟨hu, hf⟩, hl]
  cases v with
  | null => exact absurd rfl hv
  | bool b => rfl
  | num n => rfl
  | str s => rfl
  | arr xs => rfl
  | obj fs => rfl

lemma buildOperations_error_of_missing (cfg : Config) (hu : cfg.upsert = true)
    (hf : cfg.idField ≠ "") :
    ∀ docs : List JObj,
      (∃ d ∈ docs,
        lookupKV cfg.idField d = none ∨ lookupKV cfg.idField d = some JValue.null) →
      ∃ msg, buildOperations cfg docs = Except.error msg := by
  intro docs
  induction docs with
  | nil =>
    rintro ⟨d, hd, _⟩
    cases hd
  | cons a ds ih =>
    rintro ⟨d, hd, hm⟩
    rcases List.mem_cons.mp hd with h | h
    · subst h
      refine ⟨"Document missing required ID field " ++ cfg.idField, ?_⟩
      unfold buildOperations
      rw [opsForDoc_missing cfg d hu hf hm]
    · cases hopsa : opsForDoc cfg a with
      | error m =>
        refine ⟨m, ?_⟩
        unfold buildOperations
        rw [hopsa]
      | ok ops =>
        obtain ⟨msg, hmsg⟩ := ih ⟨d, h, hm⟩
        refine ⟨msg, ?_⟩
        unfold buildOperations
        rw [hopsa, hmsg]

lemma buildOperations_ok_of_present (cfg : Config) (hu : cfg.upsert = true)
    (hf : cfg.idField ≠ "") :
    ∀ docs : List JObj,
      (∀ d ∈ docs, ∃ v, lookupKV cfg.idField d = some v ∧ v ≠ JValue.null) →
      buildOperations cfg docs = Except.ok (docs.flatMap fun d =>
        [Op.updateAction (base64Encode (strBytes (jsString
            ((lookupKV cfg.idField d).getD JValue.null)))),
          Op.updateDoc d true]) := by
  intro docs
  induction docs with
  | nil => intro _; rfl
  | cons a ds ih =>
    intro hall
    obtain ⟨v, hv, hvn⟩ := hall a (List.mem_cons_self a ds)
    have ha := opsForDoc_present cfg a v hu hf hv hvn
    unfold buildOperations
    rw [ha, ih (fun d hd => hall d (List.mem_cons_of_mem a hd))]
    simp [hv]

/-- C7: in upsert mode, any document whose configured ID field is absent or
null makes the operation build fail, so the write throws with state
untouched and nothing is dispatched (the document is not silently dropped);
when every document carries a present non-null ID field, the built
operations are, per document, an update action whose identifier is the
base64 encoding of the string form of the field value, paired with a
payload whose doc_as_upsert flag is true. -/
theorem upsert_id_field (cfg : Config) (docs : List JObj)
    (hu : cfg.upsert = true) (hf : cfg.idField ≠ "") :
    ((∃ d ∈ docs,
        lookupKV cfg.idField d = none ∨ lookupKV cfg.idField d = some JValue.null) →
      (∃ msg, buildOperations cfg docs = Except.error msg) ∧
      (∀ (exp : Nat) (fin : Bool) (s : SendState) (outcome : BulkOutcome),
        ∃ msg, sendToElastic_write cfg exp fin s docs outcome =
          ⟨s, [], [], false, false, some msg⟩)) ∧
    ((∀ d ∈ docs, ∃ v, lookupKV cfg.idField d = some v ∧ v ≠ JValue.null) →
      buildOperations cfg docs = Except.ok (docs.flatMap fun d =>
        [Op.updateAction (base64Encode (strBytes (jsString
            ((lookupKV cfg.idField d).getD JValue.null)))),
          Op.updateDoc d true])) := by
  constructor
  · intro hmiss
    obtain ⟨msg, hmsg⟩ := buildOperations_error_of_missing cfg hu hf docs hmiss
    refine ⟨⟨msg, hmsg⟩, ?_⟩
    intro exp fin s outcome
    refine ⟨msg, ?_⟩
    have hne : docs ≠ [] := by
      rintro rfl
      obtain ⟨d, hd, _⟩ := hmiss
      cases hd
    have h0 : ¬(docs.length = 0) := by simpa using hne
    unfold sendToElastic_write
    rw [if_neg h0, hmsg]
  · intro hall
    exact buildOperations_ok_of_present cfg hu hf docs hall

/-- Witness for C7 at concrete inputs: a document without the configured id
field makes the write throw without dispatching; a document carrying it
builds the update-with-upsert operations with the base64-encoded
identifier. -/
theorem upsert_id_field_witness :
    (∃ msg, sendToElastic_write ⟨true, false, "id", []⟩ 1 true ⟨[], 0, [], 0⟩
        [[("a", JValue.num 1)]] (BulkOutcome.ok false []) =
      ⟨⟨[], 0, [], 0⟩, [], [], false, false, some msg⟩) ∧
    buildOperations ⟨true, false, "id", []⟩ [[("id", JValue.str "x")]] =
      Except.ok [Op.updateAction (base64Encode (strBytes "x")),
        Op.updateDoc [("id", JValue.str "x")] true] :=
  ⟨((upsert_id_field ⟨true, false, "id", []⟩ [[("a", JValue.num 1)]] rfl
        (by decide)).1
      ⟨[("a", JValue.num 1)], by simp, Or.inl (by decide)⟩).2
      1 true ⟨[], 0, [], 0⟩ (BulkOutcome.ok false []),
    (upsert_id_field ⟨true, false, "id", []⟩ [[("id", JValue.str "x")]] rfl
        (by decide)).2
      (by
        intro d hd
        simp only [List.mem_singleton] at hd
        subst hd
        exact ⟨JValue.str "x", by decide, by decide⟩)⟩

lemma classifyItem_errored (u v : Bool) (st : SendState) (i : Nat)
    (item : ItemOutcome) :
    (classifyItem u v st i item).erroredDocuments =
      st.erroredDocuments ++ itemError u i item := by
  unfold classifyItem itemError
  by_cases h1 : item.hasError = true
  · by_cases h2 : item.status = 409 ∧ u = false
    · simp [h1, h2]
    · simp [h1, h2]
  · simp [h1]

lemma classifyFold_errored (u v : Bool) :
    ∀ (l : List (Nat × ItemOutcome)) (st : SendState),
      (classifyFold u v st l).erroredDocuments =
        st.erroredDocuments ++ l.flatMap fun p => itemError u p.1 p.2 := by
  intro l
  induction l with
  | nil => intro st; simp [classifyFold]
  | cons p ps ih =>
    intro st
    simp [classifyFold, ih, classifyItem_errored]

lemma classifyItems_errored (u v : Bool) (st : SendState) (items : List ItemOutcome) :
    (classifyItems u v st items).erroredDocuments =
      st.erroredDocuments ++ itemErrors u items := by
  unfold classifyItems itemErrors
  rw [classifyFold_errored]

/-- Counterexample to C9 as stated: the per-batch error list is held in the
closure state shared by all write invocations of one stream, so the printed
error block is not a function of the batch alone: from a carried-over state
holding a stale error, the very same batch and response print a block that
also contains the stale error of the other batch. -/
theorem errored_documents_shared_across_batches :
    (sendToElastic_write ⟨false, false, "", []⟩ 5 false
        ⟨[⟨500, "stale", none, 0⟩], 0, [], 1⟩ [[("a", JValue.num 1)]]
        (BulkOutcome.ok true [⟨400, true, some "bad", some "mapper"⟩])).printedErrors ≠
      (sendToElastic_write ⟨false, false, "", []⟩ 5 false
        ⟨[], 0, [], 1⟩ [[("a", JValue.num 1)]]
        (BulkOutcome.ok true [⟨400, true, some "bad", some "mapper"⟩])).printedErrors ∧
    (⟨500, "stale", none, 0⟩ : ErrDoc) ∈
      (sendToElastic_write ⟨false, false, "", []⟩ 5 false
        ⟨[⟨500, "stale", none, 0⟩], 0, [], 1⟩ [[("a", JValue.num 1)]]
        (BulkOutcome.ok true [⟨400, true, some "bad", some "mapper"⟩])).printedErrors := by
  decide

/-- C9 amended: the error list is carried in the stream-level closure state
across batches, but every invocation entered with an empty list (which every
reachable invocation is: the list starts empty and each invocation that
fills it prints and clears it before returning) leaves the list empty and
prints a block consisting exactly of the errors classified from its own
response, so the printed error block of each batch contains only errors of
that batch. -/
theorem errored_documents_batch_local (cfg : Config) (exp : Nat) (fin : Bool)
    (s : SendState) (realData : List JObj) (errorsFlag : Bool)
    (items : List ItemOutcome) (ops : List Op)
    (hclean : s.erroredDocuments = [])
    (hne : realData ≠ [])
    (hops : buildOperations cfg realData = Except.ok ops) :
    (sendToElastic_write cfg exp fin s realData
        (BulkOutcome.ok errorsFlag items)).state.erroredDocuments = [] ∧
    (sendToElastic_write cfg exp fin s realData
        (BulkOutcome.ok errorsFlag items)).printedErrors =
      (if errorsFlag = true ∧ itemErrors cfg.upsert items ≠ []
        then itemErrors cfg.upsert items else []) := by
  have h0 : ¬(realData.length = 0) := by simpa using hne
  have hcl : (classifyItems cfg.upsert cfg.verbose
      { s with batchesProcessed := s.batchesProcessed + 1 } items).erroredDocuments =
      itemErrors cfg.upsert items := by
    rw [classifyItems_errored]
    simp [hclean]
  unfold sendToElastic_write
  rw [if_neg h0, hops]
  cases errorsFlag with
  | false =>
    constructor
    · simp [hclean]
    · simp [itemErrors]
  | true =>
    by_cases herrs : itemErrors cfg.upsert items = []
    · constructor
      · simp [hcl, herrs]
      · simp [hcl, herrs]
    · have hlen : (itemErrors cfg.upsert items).length > 0 :=
        List.length_pos.mpr herrs
      constructor
      · simp [hcl, hlen]
      · simp [hcl, hlen, herrs]

/-- Witness for C9 amended at a concrete input: from a clean state, a batch
whose response carries one 400 error prints exactly that error and leaves
the list empty. -/
theorem errored_documents_batch_local_witness :
    (sendToElastic_write ⟨false, false, "", []⟩ 5 false ⟨[], 0, [], 1⟩
        [[("a", JValue.num 1)]]
        (BulkOutcome.ok true
          [⟨400, true, some "bad", some "mapper"⟩])).state.erroredDocuments = [] ∧
    (sendToElastic_write ⟨false, false, "", []⟩ 5 false ⟨[], 0, [], 1⟩
        [[("a", JValue.num 1)]]
        (BulkOutcome.ok true [⟨400, true, some "bad", some "mapper"⟩])).printedErrors =
      (if (true : Bool) = true ∧
          itemErrors false [⟨400, true, some "bad", some "mapper"⟩] ≠ []
        then itemErrors false [⟨400, true, some "bad", some "mapper"⟩] else []) :=
  errored_documents_batch_local ⟨false, false, "", []⟩ 5 false ⟨[], 0, [], 1⟩
    [[("a", JValue.num 1)]] true [⟨400, true, some "bad", some "mapper"⟩]
    [Op.createAction (computeIdentifier [] [("a", JValue.num 1)]),
      Op.createDoc [("a", JValue.num 1)]]
    rfl (by decide) rfl

end OpensearchStream
